import Mathlib

/-!
Shallow embedding of the WhatsApp chat viewer data layer
(`src/workers/chatParser.worker.ts`, `src/utils/normalizedDb.ts`,
`src/utils/dbMigration.ts`, `src/utils/indexedDb.ts`, `src/utils/localStorage.ts`)
together with theorems settling the frozen claims about it.

Conventions of the embedding:
* JS strings are Lean `String`s; most character-level work happens on `List Char`
  (`String.data`).
* The regular expressions in the source are embedded as structural matchers on
  `List Char`.  Each quantifier in the regexes at hand is followed by a character
  that cannot extend the quantified class, so greedy maximal-munch scanning is
  equivalent to backtracking; where backtracking does matter (`\s*(.+)$` on an
  all-whitespace tail) the matcher implements the backtracked outcome.
* `Date.now()` and `new Date(string).getTime()` are modelled by an explicit
  clock value `now : Int` and an explicit parsing oracle
  `jsParse : String → Option Int` (`none` standing for `NaN`).
* `Math.random()`-derived id suffixes are modelled by an explicit stream
  `sfx : Nat → String`.
* IndexedDB object stores are lists of records; `put` is upsert by primary key,
  index `getAll` is a filter, and the store list named in
  `database.transaction([...])` is embedded as an explicit scope constant.
-/

namespace WhatsAppViewer

/-! ## JavaScript character classes

`isJsSpace` is the JS regex class `\s` (also the character set trimmed by
`String.prototype.trim`); `isLineTerm` is the set of line terminators, which
the `.` metacharacter does not match. -/

def isJsSpace (c : Char) : Bool :=
  c = ' ' || c = '\t' || c = '\n' || c = '\x0b' || c = '\x0c' || c = '\r' ||
  c = '\u00a0' || c = '\u1680' || ('\u2000' ≤ c && c ≤ '\u200a') ||
  c = '\u2028' || c = '\u2029' || c = '\u202f' || c = '\u205f' ||
  c = '\u3000' || c = '\ufeff'

def isLineTerm (c : Char) : Bool :=
  c = '\n' || c = '\r' || c = '\u2028' || c = '\u2029'

/-- JS `String.prototype.trim`: strip leading and trailing whitespace. -/
def trimList (cs : List Char) : List Char :=
  ((cs.dropWhile isJsSpace).reverse.dropWhile isJsSpace).reverse

/-- JS `String.prototype.split(sep)` for a single-character separator. -/
def splitOnChar (sep : Char) : List Char → List (List Char)
  | [] => [[]]
  | c :: rest =>
    if c = sep then
      [] :: splitOnChar sep rest
    else
      match splitOnChar sep rest with
      | [] => [[c]]
      | x :: xs => (c :: x) :: xs

/-- JS `Array.prototype.join(sep)`. -/
def joinSep (sep : String) : List String → String
  | [] => ""
  | [x] => x
  | x :: y :: xs => x ++ sep ++ joinSep sep (y :: xs)

/-! ## Transcript parser (`src/workers/chatParser.worker.ts`)

The line grammar is
`messageRegex = /^(\d{1,2}\/\d{1,2}\/\d{2,4}),\s*(\d{1,2}:\d{2})\s*-\s*(.+)$/`
and the sender split is `/^([^:]+):\s*(.*)$/`. -/

structure ParsedMessage where
  id : String
  date : String
  time : String
  sender : String
  content : String
  isBookmarked : Bool
  isSystemMessage : Bool
  deriving Repr, DecidableEq

structure ParseResult where
  messages : List ParsedMessage
  chatName : String
  participants : List String
  messageCount : Nat
  deriving Repr, DecidableEq

/-- The tail of `messageRegex`, `\s*(.+)$`, applied after the literal `-`:
greedily skip whitespace and capture the non-empty remainder, which `.` forbids
from containing a line terminator.  When the remainder after the whitespace is
empty the regex engine backtracks one whitespace character into the capture. -/
def restAfterDash (r : List Char) : Option (List Char) :=
  let t := r.dropWhile isJsSpace
  if t.isEmpty then
    match r.getLast? with
    | none => none
    | some c => if isLineTerm c then none else some [c]
  else if t.any isLineTerm then none else some t

/-- Structural matcher for `messageRegex`; returns the three capture groups
(date, time, rest).  Each `\d{i,j}` run is delimited by a non-digit in the
regex, and each `\s*` by a non-space, so maximal munch agrees with the regex. -/
def matchMessageLine (cs : List Char) : Option (List Char × List Char × List Char) :=
  let d1 := cs.takeWhile Char.isDigit
  let r1 := cs.dropWhile Char.isDigit
  if d1.length = 0 || 2 < d1.length then none else
  match r1 with
  | '/' :: r2 =>
    let d2 := r2.takeWhile Char.isDigit
    let r3 := r2.dropWhile Char.isDigit
    if d2.length = 0 || 2 < d2.length then none else
    match r3 with
    | '/' :: r4 =>
      let y := r4.takeWhile Char.isDigit
      let r5 := r4.dropWhile Char.isDigit
      if y.length < 2 || 4 < y.length then none else
      match r5 with
      | ',' :: r6 =>
        let r7 := r6.dropWhile isJsSpace
        let hh := r7.takeWhile Char.isDigit
        let r8 := r7.dropWhile Char.isDigit
        if hh.length = 0 || 2 < hh.length then none else
        match r8 with
        | ':' :: r9 =>
          let mi := r9.takeWhile Char.isDigit
          let r10 := r9.dropWhile Char.isDigit
          if mi.length ≠ 2 then none else
          match r10.dropWhile isJsSpace with
          | '-' :: r12 =>
            match restAfterDash r12 with
            | none => none
            | some rest => some (d1 ++ ('/' :: (d2 ++ ('/' :: y))), hh ++ (':' :: mi), rest)
          | _ => none
        | _ => none
      | _ => none
    | _ => none
  | _ => none

/-- The `rest.match(/^([^:]+):\s*(.*)$/)` classification: returns
(sender, content, isSystemMessage) already `.trim()`-ed as in the source. -/
def classifyRest (rest : List Char) : List Char × List Char × Bool :=
  let before := rest.takeWhile (fun c => c ≠ ':')
  let after0 := rest.dropWhile (fun c => c ≠ ':')
  match after0 with
  | ':' :: after =>
    if before.isEmpty then
      (("System").data, trimList rest, true)
    else
      (trimList before, trimList (after.dropWhile isJsSpace), false)
  | _ => (("System").data, trimList rest, true)

/-- One iteration of the line loop: regex-match the line and build the pushed
message, `sfxK` standing for this message's `Math.random()` id suffix. -/
def processLine (sfxK : String) (l : List Char) : Option ParsedMessage :=
  match matchMessageLine l with
  | none => none
  | some (date, time, rest) =>
    let (sender, content, isSys) := classifyRest rest
    some { id := String.mk (date ++ '-' :: time ++ '-' :: sfxK.data)
           date := String.mk (trimList date)
           time := String.mk (trimList time)
           sender := String.mk sender
           content := String.mk content
           isBookmarked := false
           isSystemMessage := isSys }

/-- `participants.add(sender)` on a JS `Set` keeps first-insertion order. -/
def addUnique (ps : List String) (s : String) : List String :=
  if s ∈ ps then ps else ps ++ [s]

/-- The line loop: accumulates messages and the participant set.  `k` indexes
the id-suffix stream; participants are added only in the sender/content branch
and only when the trimmed sender is not the literal `"System"`. -/
def runParse (sfx : Nat → String) : List (List Char) → Nat → List String →
    List ParsedMessage × List String
  | [], _, ps => ([], ps)
  | l :: ls, k, ps =>
    match processLine (sfx k) l with
    | none => runParse sfx ls k ps
    | some msg =>
      let ps2 := if msg.isSystemMessage = false && msg.sender ≠ "System" then
                   addUnique ps msg.sender
                 else ps
      let (ms, psF) := runParse sfx ls (k + 1) ps2
      (msg :: ms, psF)

/-- Chat-name generation from the final participant list (single pass, by
cardinality), exactly as in the worker. -/
def generateChatName (participantList : List String) : String :=
  if participantList.length = 0 then
    "Empty Chat"
  else if participantList.length = 1 then
    participantList.headD "" ++ " (Notes)"
  else if participantList.length = 2 then
    joinSep " & " participantList
  else
    joinSep ", " (participantList.take 2) ++ " +" ++
      toString (participantList.length - 2) ++ " others"

/-- `parseWhatsAppChatInChunks`: split on newlines, drop lines that are empty
after trim, run the line loop, and assemble the completion result.  The
1000-line chunking in the source only drives progress events and a zero-delay
yield; the produced messages and participants are those of the sequential loop
embedded here. -/
def parseWhatsAppChatInChunks (sfx : Nat → String) (content : String) : ParseResult :=
  let lines := (splitOnChar '\n' content.data).filter (fun l => !(trimList l).isEmpty)
  let (msgs, ps) := runParse sfx lines 0 []
  { messages := msgs
    chatName := generateChatName ps
    participants := ps
    messageCount := msgs.length }

/-! ## Data model (`src/utils/normalizedDb.ts`)

In-memory `Chat`/`Message` values (from `types/chat.ts`) and the three record
shapes of the normalized store.  `Date` values are epoch milliseconds. -/

structure Message where
  id : String
  date : String
  time : String
  sender : String
  content : String
  isBookmarked : Bool
  isSystemMessage : Bool
  deriving Repr, DecidableEq

structure Chat where
  id : String
  name : String
  messages : List Message
  createdAt : Int
  lastMessageTime : String
  deriving Repr, DecidableEq

structure ChatRecord where
  id : String
  name : String
  createdAt : Int
  lastMessageTime : String
  messageCount : Nat
  participantCount : Nat
  participants : List String
  deriving Repr, DecidableEq

structure MessageRecord where
  id : String
  chatId : String
  date : String
  time : String
  sender : String
  content : String
  isSystemMessage : Bool
  timestamp : Int
  deriving Repr, DecidableEq

structure BookmarkRecord where
  id : String
  chatId : String
  createdAt : Int
  sender : String
  content : String
  date : String
  time : String
  chatName : String
  isSystemMessage : Bool
  deriving Repr, DecidableEq

structure MetadataRecord where
  key : String
  updatedAt : Int
  deriving Repr, DecidableEq

/-- The four object stores of the `whatsapp-viewer-v2` database. -/
structure DBState where
  chats : List ChatRecord
  messages : List MessageRecord
  bookmarks : List BookmarkRecord
  metadata : List MetadataRecord
  deriving Repr, DecidableEq

/-- The denormalized bookmark shape handed back to the UI. -/
structure BookmarkedMessage where
  id : String
  date : String
  time : String
  sender : String
  content : String
  isBookmarked : Bool
  isSystemMessage : Bool
  chatId : String
  chatName : String
  deriving Repr, DecidableEq

/-- IndexedDB `store.put`: upsert by primary key. -/
def putByKey (key : α → String) (r : α) : List α → List α
  | [] => [r]
  | x :: xs => if key x = key r then r :: xs else x :: putByKey key r xs

/-! ## Timestamp derivation (`parseTimestamp`) -/

/-- First alternative of `dateRegex`: one or two digits, a `/` or `-` separator,
one or two digits, a separator, exactly four digits, end. -/
def dateAlt1 (cs : List Char) : Bool :=
  let a := cs.takeWhile Char.isDigit
  let r1 := cs.dropWhile Char.isDigit
  if a.length = 0 || 2 < a.length then false else
  match r1 with
  | s1 :: r2 =>
    if s1 ≠ '/' && s1 ≠ '-' then false else
    let b := r2.takeWhile Char.isDigit
    let r3 := r2.dropWhile Char.isDigit
    if b.length = 0 || 2 < b.length then false else
    match r3 with
    | s2 :: r4 =>
      if s2 ≠ '/' && s2 ≠ '-' then false else
      let c := r4.takeWhile Char.isDigit
      let r5 := r4.dropWhile Char.isDigit
      c.length = 4 && r5.isEmpty
    | [] => false
  | [] => false

/-- Second alternative of `dateRegex`: exactly four digits, a `/` or `-`
separator, one or two digits, a separator, one or two digits, end. -/
def dateAlt2 (cs : List Char) : Bool :=
  let a := cs.takeWhile Char.isDigit
  let r1 := cs.dropWhile Char.isDigit
  if a.length ≠ 4 then false else
  match r1 with
  | s1 :: r2 =>
    if s1 ≠ '/' && s1 ≠ '-' then false else
    let b := r2.takeWhile Char.isDigit
    let r3 := r2.dropWhile Char.isDigit
    if b.length = 0 || 2 < b.length then false else
    match r3 with
    | s2 :: r4 =>
      if s2 ≠ '/' && s2 ≠ '-' then false else
      let c := r4.takeWhile Char.isDigit
      let r5 := r4.dropWhile Char.isDigit
      (c.length = 1 || c.length = 2) && r5.isEmpty
    | [] => false
  | [] => false

/-- `dateRegex`: either of the two date alternatives (D/M/YYYY-style or
YYYY-M-D-style, with `/` or `-` separators). -/
def dateFormatTest (cs : List Char) : Bool :=
  dateAlt1 cs || dateAlt2 cs

/-- The optional `(\s?(AM|PM))?$` tail of `timeRegex`, case-insensitive. -/
def amPmTail (r : List Char) : Bool :=
  match r with
  | [] => true
  | [c1, c2] => (c1 = 'A' || c1 = 'a' || c1 = 'P' || c1 = 'p') && (c2 = 'M' || c2 = 'm')
  | [w, c1, c2] =>
    isJsSpace w && (c1 = 'A' || c1 = 'a' || c1 = 'P' || c1 = 'p') && (c2 = 'M' || c2 = 'm')
  | _ => false

/-- `timeRegex = /^\d{1,2}:\d{2}(:\d{2})?(\s?(AM|PM))?$/i`. -/
def timeFormatTest (cs : List Char) : Bool :=
  let h := cs.takeWhile Char.isDigit
  let r1 := cs.dropWhile Char.isDigit
  if h.length = 0 || 2 < h.length then false else
  match r1 with
  | ':' :: r2 =>
    let m := r2.takeWhile Char.isDigit
    let r3 := r2.dropWhile Char.isDigit
    if m.length ≠ 2 then false else
    match r3 with
    | ':' :: r4 =>
      let s := r4.takeWhile Char.isDigit
      let r5 := r4.dropWhile Char.isDigit
      if s.length ≠ 2 then false else amPmTail r5
    | r4 => amPmTail r4
  | _ => false

/-- `parseTimestamp(date, time)`: validate both grammars, then parse
`"date time"` with the JS `Date` constructor (the oracle `jsParse`, `none`
standing for `NaN`), falling back to `Date.now()` (= `now`) at each failure. -/
def parseTimestamp (jsParse : String → Option Int) (now : Int)
    (date time : String) : Int :=
  if !dateFormatTest (trimList date.data) then now
  else if !timeFormatTest (trimList time.data) then now
  else
    match jsParse (date ++ " " ++ time) with
    | none => now
    | some t => t

/-! ## Storage engine operations (`src/utils/normalizedDb.ts`)

Each operation names the object stores of its IndexedDB transaction in an
explicit `...ScopeStores` constant mirroring the `database.transaction([...])`
call in the source. -/

/-- `[...new Set(chat.messages.filter(m => !m.isSystemMessage).map(m => m.sender))]`. -/
def chatParticipants (chat : Chat) : List String :=
  ((chat.messages.filter (fun m => !m.isSystemMessage)).map (fun m => m.sender)).foldl
    addUnique []

/-- The `ChatRecord` built by `saveChatMetadata`. -/
def chatMetadataRecord (chat : Chat) : ChatRecord :=
  { id := chat.id
    name := chat.name
    createdAt := chat.createdAt
    lastMessageTime := chat.lastMessageTime
    messageCount := chat.messages.length
    participantCount := (chatParticipants chat).length
    participants := chatParticipants chat }

def saveChatMetadataScopeStores : List String := ["chats"]

/-- `saveChatMetadata`: a readwrite transaction on the chats store, `put` of
the derived record. -/
def saveChatMetadata (chat : Chat) (st : DBState) : DBState :=
  { st with chats := putByKey ChatRecord.id (chatMetadataRecord chat) st.chats }

/-- The `MessageRecord` built for one message by `saveChatMessages`. -/
def toMessageRecord (jsParse : String → Option Int) (now : Int) (chatId : String)
    (m : Message) : MessageRecord :=
  { id := m.id
    chatId := chatId
    date := m.date
    time := m.time
    sender := m.sender
    content := m.content
    isSystemMessage := m.isSystemMessage
    timestamp := parseTimestamp jsParse now m.date m.time }

def saveChatMessagesScopeStores : List String := ["messages"]

/-- `saveChatMessages`: map every message to its normalized record and `put`
them all into the messages store. -/
def saveChatMessages (jsParse : String → Option Int) (now : Int) (chatId : String)
    (messages : List Message) (st : DBState) : DBState :=
  { st with
    messages :=
      ((messages.map (toMessageRecord jsParse now chatId)).foldl
        (fun acc r => putByKey MessageRecord.id r acc) st.messages) }

/-- `saveChat`: metadata and messages (the two single-store transactions). -/
def saveChat (jsParse : String → Option Int) (now : Int) (chat : Chat)
    (st : DBState) : DBState :=
  saveChatMessages jsParse now chat.id chat.messages (saveChatMetadata chat st)

/-- Conversion used by `loadChatMessages`. -/
def recordToMessage (r : MessageRecord) : Message :=
  { id := r.id
    date := r.date
    time := r.time
    sender := r.sender
    content := r.content
    isBookmarked := false
    isSystemMessage := r.isSystemMessage }

def loadChatMessagesScopeStores : List String := ["messages"]

/-- The `chatId_timestamp` index range scan
`IDBKeyRange.bound([chatId, 0], [chatId, Date.now()])`: records of this chat
whose timestamp lies in `[0, now]`, in ascending `(timestamp, id)` key order. -/
def chatMessagesInRange (now : Int) (st : DBState) (chatId : String) :
    List MessageRecord :=
  (st.messages.filter
      (fun r => r.chatId = chatId && 0 ≤ r.timestamp && r.timestamp ≤ now)).insertionSort
    (fun a b => a.timestamp < b.timestamp ∨ (a.timestamp = b.timestamp ∧ a.id ≤ b.id))

/-- `loadChatMessages(chatId, limit?, offset?)`: the bounded index scan above,
mapped to `Message`s, then `slice(offset)` and `slice(0, limit)`. -/
def loadChatMessages (now : Int) (st : DBState) (chatId : String)
    (limit offsetArg : Option Nat) : List Message :=
  let messages := (chatMessagesInRange now st chatId).map recordToMessage
  let messages := match offsetArg with
    | some o => messages.drop o
    | none => messages
  match limit with
  | some l => messages.take l
  | none => messages

def saveBookmarkScopeStores : List String := ["bookmarks"]

/-- The snapshot argument of `saveBookmark`. -/
structure MessageSnapshot where
  sender : String
  content : String
  date : String
  time : String
  isSystemMessage : Bool
  deriving Repr, DecidableEq

/-- `saveBookmark`: `put` of the denormalized record (readwrite transaction on
the bookmarks store only); `createdAt := new Date()` is the clock `now`. -/
def saveBookmark (now : Int) (messageId chatId : String) (messageData : MessageSnapshot)
    (chatName : String) (st : DBState) : DBState :=
  { st with
    bookmarks :=
      putByKey BookmarkRecord.id
        { id := messageId
          chatId := chatId
          createdAt := now
          sender := messageData.sender
          content := messageData.content
          date := messageData.date
          time := messageData.time
          chatName := chatName
          isSystemMessage := messageData.isSystemMessage }
        st.bookmarks }

def getMessageAndChatForBookmarkScopeStores : List String := ["messages", "chats"]

/-- `getMessageAndChatForBookmark`: `get` the message and the chat by primary
key; `null` when either is absent. -/
def getMessageAndChatForBookmark (st : DBState) (messageId chatId : String) :
    Option (MessageSnapshot × String) :=
  match st.messages.find? (fun r => r.id = messageId),
      st.chats.find? (fun c => c.id = chatId) with
  | some mr, some cr =>
    some ({ sender := mr.sender
            content := mr.content
            date := mr.date
            time := mr.time
            isSystemMessage := mr.isSystemMessage }, cr.name)
  | _, _ => none

/-- `saveBookmarkLegacy`: resolve the message and chat, throw
`"Message or chat not found"` when the lookup fails, else `saveBookmark`. -/
def saveBookmarkLegacy (now : Int) (messageId chatId : String) (st : DBState) :
    Except String DBState :=
  match getMessageAndChatForBookmark st messageId chatId with
  | none => Except.error "Message or chat not found"
  | some (messageData, chatName) =>
    Except.ok (saveBookmark now messageId chatId messageData chatName st)

def loadBookmarksScopeStores : List String := ["bookmarks"]

/-- Denormalized record to UI shape, as mapped in `loadBookmarks`. -/
def toBookmarkedMessage (b : BookmarkRecord) : BookmarkedMessage :=
  { id := b.id
    date := b.date
    time := b.time
    sender := b.sender
    content := b.content
    isBookmarked := true
    isSystemMessage := b.isSystemMessage
    chatId := b.chatId
    chatName := b.chatName }

/-- The sort comparator of `loadBookmarks` (newest `createdAt` first), which
looks each side up again in the fetched records by id; the `none` cases embed
the not-found fallbacks of the comparator. -/
def bookmarkBefore (records : List BookmarkRecord) (a b : BookmarkedMessage) : Bool :=
  match records.find? (fun br => br.id = a.id), records.find? (fun br => br.id = b.id) with
  | none, none => true
  | none, some _ => false
  | some _, none => true
  | some ra, some rb => rb.createdAt ≤ ra.createdAt

/-- The body of `loadBookmarks` as a function of the records fetched by the
single `getAll` on the bookmarks store: map to the UI shape, then sort by
bookmark creation date, newest first. -/
def loadBookmarksFromRecords (records : List BookmarkRecord) : List BookmarkedMessage :=
  (records.map toBookmarkedMessage).insertionSort
    (fun a b => bookmarkBefore records a b = true)

/-- `loadBookmarks()`: a readonly transaction on the bookmarks store only, one
`getAll`, no access to the messages or chats stores. -/
def loadBookmarks (st : DBState) : List BookmarkedMessage :=
  loadBookmarksFromRecords st.bookmarks

def deleteChatScopeStores : List String := ["chats", "messages", "bookmarks"]

/-- IndexedDB `index('chatId').getAll(chatId)` on the messages store. -/
def messagesByChatId (st : DBState) (chatId : String) : List MessageRecord :=
  st.messages.filter (fun r => r.chatId = chatId)

/-- IndexedDB `index('chatId').getAll(chatId)` on the bookmarks store. -/
def bookmarksByChatId (st : DBState) (chatId : String) : List BookmarkRecord :=
  st.bookmarks.filter (fun b => b.chatId = chatId)

/-- `deleteChat`: one readwrite transaction over chats, messages and bookmarks;
delete the chat row by key, then delete every record returned by each `chatId`
index lookup by its primary key. -/
def deleteChat (st : DBState) (chatId : String) : DBState :=
  { st with
    chats := st.chats.filter (fun c => c.id ≠ chatId)
    messages :=
      (messagesByChatId st chatId).foldl
        (fun acc r => acc.filter (fun x => x.id ≠ r.id)) st.messages
    bookmarks :=
      (bookmarksByChatId st chatId).foldl
        (fun acc b => acc.filter (fun x => x.id ≠ b.id)) st.bookmarks }

/-! ## Migration coordinator (`src/utils/dbMigration.ts`)

`hasOldData`/`hasNewData` talk to IndexedDB directly by database name, so the
detector is embedded against an environment mapping database names to database
shapes.  `indexedDB.open(name, v)` on an existing database with a version
larger than `v` fires `onerror` (a `VersionError`), which both helpers turn
into `false`; opening an absent name creates an empty database with no object
stores, so the `objectStoreNames.contains('chats')` guard also yields `false`. -/

/-- What the migration detector can observe of one IndexedDB database:
its version and the record count of its `chats` object store
(`none` when no such store exists). -/
structure IDBDatabaseShape where
  version : Nat
  chatsCount : Option Nat
  deriving Repr, DecidableEq

/-- The browser-wide IndexedDB environment: database name to shape. -/
abbrev IDBEnv := List (String × IDBDatabaseShape)

def lookupDb (env : IDBEnv) (name : String) : Option IDBDatabaseShape :=
  (List.find? (fun p => p.1 = name) env).map (fun p => p.2)

/-- Common body of `hasOldData`/`hasNewData`: open `name` at version
`requestedVersion`, resolve `false` on open error, missing `chats` store, or
zero count, else `count > 0`. -/
def openAndCountChats (env : IDBEnv) (name : String) (requestedVersion : Nat) : Bool :=
  match lookupDb env name with
  | none => false
  | some d =>
    if requestedVersion < d.version then false
    else
      match d.chatsCount with
      | none => false
      | some n => 0 < n

/-- `hasOldData`: `indexedDB.open('WhatsAppViewerDB', 1)` and count `chats`. -/
def hasOldData (env : IDBEnv) : Bool :=
  openAndCountChats env "WhatsAppViewerDB" 1

/-- `hasNewData`: `indexedDB.open('WhatsAppViewerNormalized', 1)` and count
`chats`. -/
def hasNewData (env : IDBEnv) : Bool :=
  openAndCountChats env "WhatsAppViewerNormalized" 1

/-- `needsMigrationFromOldDb`: old has data and new does not. -/
def needsMigrationFromOldDb (env : IDBEnv) : Bool :=
  hasOldData env && !hasNewData env

/-- Number of chat records in the legacy store that the migration procedure
itself reads: `loadChatsBatch` opens `whatsapp-viewer-db` (`src/utils/indexedDb.ts`),
the database that `cleanupOldDatabase` also deletes. -/
def legacyStoreChatCount (env : IDBEnv) : Nat :=
  match lookupDb env "whatsapp-viewer-db" with
  | some d => d.chatsCount.getD 0
  | none => 0

/-- Number of chat records in the current normalized store: `saveChat` writes
through `initNormalizedDB`, which opens `whatsapp-viewer-v2` at version 2
(`src/utils/normalizedDb.ts`). -/
def currentStoreChatCount (env : IDBEnv) : Nat :=
  match lookupDb env "whatsapp-viewer-v2" with
  | some d => d.chatsCount.getD 0
  | none => 0

/-- The legacy bookmark entries read from localStorage reference message and
chat by id (the only fields `migrateBookmarkData` uses). -/
structure LegacyBookmark where
  id : String
  chatId : String
  deriving Repr, DecidableEq

/-- Result record of `migrateBookmarkData`. -/
structure BookmarkMigrationResult where
  success : Bool
  migratedBookmarks : Nat
  deriving Repr, DecidableEq

/-- The `for (const bookmark of legacyBookmarks) await saveBookmarkLegacy(...)`
loop.  A throw from `saveBookmarkLegacy` propagates to the surrounding
`catch`, which returns `{ success: false, migratedBookmarks: 0 }`; bookmarks
`put` before the throw stay in the store (no rollback). -/
def migrateBookmarkLoop (now : Int) (total : Nat) (st : DBState) :
    List LegacyBookmark → DBState × BookmarkMigrationResult
  | [] => (st, { success := true, migratedBookmarks := total })
  | b :: bs =>
    match saveBookmarkLegacy now b.id b.chatId st with
    | Except.error _ => (st, { success := false, migratedBookmarks := 0 })
    | Except.ok st2 => migrateBookmarkLoop now total st2 bs

/-- `migrateBookmarkData`: read the legacy bookmarks, short-circuit on an
empty list, else run the loop; on completion report success with the full
legacy count. -/
def migrateBookmarkData (now : Int) (legacyBookmarks : List LegacyBookmark)
    (st : DBState) : DBState × BookmarkMigrationResult :=
  if legacyBookmarks.isEmpty then (st, { success := true, migratedBookmarks := 0 })
  else migrateBookmarkLoop now legacyBookmarks.length st legacyBookmarks

/-- A legacy bookmark entry resolves against the store when both its message
and its chat exist (`getMessageAndChatForBookmark` succeeds). -/
def resolvesInStore (st : DBState) (b : LegacyBookmark) : Bool :=
  (getMessageAndChatForBookmark st b.id b.chatId).isSome

/-! ## Character-class lemmas -/

theorem char_eq_eq_toNat (a b : Char) : (a = b) = (a.toNat = b.toNat) :=
  propext ⟨fun h => by rw [h], fun h => Char.eq_of_val_eq (UInt32.ext h)⟩

theorem char_le_eq_toNat (a b : Char) : (a ≤ b) = (a.toNat ≤ b.toNat) :=
  propext ⟨fun h => h, fun h => h⟩

theorem isJsSpace_iff {c : Char} :
    isJsSpace c = true ↔
      c.toNat = 32 ∨ c.toNat = 9 ∨ c.toNat = 10 ∨ c.toNat = 11 ∨ c.toNat = 12 ∨
      c.toNat = 13 ∨ c.toNat = 160 ∨ c.toNat = 5760 ∨
      (8192 ≤ c.toNat ∧ c.toNat ≤ 8202) ∨ c.toNat = 8232 ∨ c.toNat = 8233 ∨
      c.toNat = 8239 ∨ c.toNat = 8287 ∨ c.toNat = 12288 ∨ c.toNat = 65279 := by
  simp only [isJsSpace, Bool.or_eq_true, Bool.and_eq_true, decide_eq_true_eq,
    char_eq_eq_toNat, char_le_eq_toNat]
  norm_num [Char.toNat]
  tauto

theorem isLineTerm_iff {c : Char} :
    isLineTerm c = true ↔
      c.toNat = 10 ∨ c.toNat = 13 ∨ c.toNat = 8232 ∨ c.toNat = 8233 := by
  simp only [isLineTerm, Bool.or_eq_true, decide_eq_true_eq, char_eq_eq_toNat,
    show Char.toNat (Char.ofNat 10) = 10 from rfl, show Char.toNat (Char.ofNat 13) = 13 from rfl,
    show Char.toNat (Char.ofNat 8232) = 8232 from rfl,
    show Char.toNat (Char.ofNat 8233) = 8233 from rfl]
  norm_num [Char.toNat]
  tauto

theorem isDigit_iff {c : Char} : c.isDigit = true ↔ 48 ≤ c.toNat ∧ c.toNat ≤ 57 := by
  constructor
  · intro h
    simp [Char.isDigit] at h
    exact ⟨h.1, h.2⟩
  · intro h
    simp [Char.isDigit]
    exact ⟨h.1, h.2⟩

theorem isJsSpace_eq_false_of_isDigit {c : Char} (h : c.isDigit = true) :
    isJsSpace c = false := by
  rw [isDigit_iff] at h
  apply Bool.eq_false_iff.mpr
  intro hsp
  rw [isJsSpace_iff] at hsp
  omega

theorem isLineTerm_eq_false_of_isDigit {c : Char} (h : c.isDigit = true) :
    isLineTerm c = false := by
  rw [isDigit_iff] at h
  apply Bool.eq_false_iff.mpr
  intro hsp
  rw [isLineTerm_iff] at hsp
  omega

theorem isDigit_ne_marks {c : Char} (h : c.isDigit = true) :
    c ≠ '/' ∧ c ≠ ':' ∧ c ≠ ',' ∧ c ≠ '-' := by
  rw [isDigit_iff] at h
  refine ⟨fun hc => ?_, fun hc => ?_, fun hc => ?_, fun hc => ?_⟩ <;>
    (rw [char_eq_eq_toNat] at hc
     simp only [show Char.toNat (Char.ofNat 47) = 47 from rfl,
       show Char.toNat (Char.ofNat 58) = 58 from rfl,
       show Char.toNat (Char.ofNat 44) = 44 from rfl,
       show Char.toNat (Char.ofNat 45) = 45 from rfl] at hc
     omega)

/-! ## List scanning lemmas -/

theorem takeWhile_append_cons {α : Type} (p : α → Bool) (xs : List α) (y : α)
    (ys : List α) (hxs : ∀ x ∈ xs, p x = true) (hy : p y = false) :
    ((xs ++ y :: ys).takeWhile p) = xs := by
  induction xs with
  | nil => simp [List.takeWhile_cons, hy]
  | cons a l ih =>
    have ha : p a = true := hxs a (by simp)
    simp only [List.cons_append, List.takeWhile_cons, ha, if_true]
    rw [ih (fun x hx => hxs x (by simp [hx]))]

theorem dropWhile_append_cons {α : Type} (p : α → Bool) (xs : List α) (y : α)
    (ys : List α) (hxs : ∀ x ∈ xs, p x = true) (hy : p y = false) :
    ((xs ++ y :: ys).dropWhile p) = y :: ys := by
  induction xs with
  | nil => simp [List.dropWhile_cons, hy]
  | cons a l ih =>
    have ha : p a = true := hxs a (by simp)
    simp only [List.cons_append, List.dropWhile_cons, ha, if_true]
    exact ih (fun x hx => hxs x (by simp [hx]))

theorem takeWhile_eq_self_of_all {α : Type} (p : α → Bool) (xs : List α)
    (h : ∀ x ∈ xs, p x = true) : xs.takeWhile p = xs := by
  induction xs with
  | nil => rfl
  | cons a l ih =>
    have ha : p a = true := h a (by simp)
    simp only [List.takeWhile_cons, ha, if_true]
    rw [ih (fun x hx => h x (by simp [hx]))]

theorem dropWhile_eq_nil_of_all {α : Type} (p : α → Bool) (xs : List α)
    (h : ∀ x ∈ xs, p x = true) : xs.dropWhile p = [] := by
  induction xs with
  | nil => rfl
  | cons a l ih =>
    have ha : p a = true := h a (by simp)
    simp only [List.dropWhile_cons, ha, if_true]
    exact ih (fun x hx => h x (by simp [hx]))

theorem dropWhile_eq_self_of_not_head {α : Type} (p : α → Bool) (x : α) (xs : List α)
    (h : p x = false) : ((x :: xs).dropWhile p) = x :: xs := by
  simp [List.dropWhile_cons, h]

theorem dropWhile_eq_self_of_all_false {α : Type} (p : α → Bool) (xs : List α)
    (h : ∀ x ∈ xs, p x = false) : xs.dropWhile p = xs := by
  cases xs with
  | nil => rfl
  | cons a l => exact dropWhile_eq_self_of_not_head p a l (h a (by simp))

theorem trimList_eq_self_of_all {cs : List Char}
    (h : ∀ c ∈ cs, isJsSpace c = false) : trimList cs = cs := by
  unfold trimList
  rw [dropWhile_eq_self_of_all_false _ _ h,
    dropWhile_eq_self_of_all_false _ _ (fun c hc => h c (List.mem_reverse.mp hc)),
    List.reverse_reverse]

theorem mem_foldl_addUnique (l : List String) :
    ∀ (acc : List String) (s : String), s ∈ l.foldl addUnique acc ↔ s ∈ acc ∨ s ∈ l := by
  induction l with
  | nil => simp
  | cons a t ih =>
    intro acc s
    rw [List.foldl_cons, ih]
    unfold addUnique
    by_cases ha : a ∈ acc
    · simp only [if_pos ha, List.mem_cons]
      constructor
      · rintro (h | h)
        · exact Or.inl h
        · exact Or.inr (Or.inr h)
      · rintro (h | h | h)
        · exact Or.inl h
        · exact Or.inl (h ▸ ha)
        · exact Or.inr h
    · simp only [if_neg ha, List.mem_append, List.mem_singleton, List.mem_cons]
      tauto

theorem mem_putByKey_self {α : Type} (key : α → String) (r : α) (l : List α) :
    r ∈ putByKey key r l := by
  induction l with
  | nil => simp [putByKey]
  | cons a t ih =>
    unfold putByKey
    by_cases h : key a = key r
    · simp [if_pos h]
    · simp only [if_neg h, List.mem_cons]
      exact Or.inr ih

/-! ## Spec-side reference definitions and fixtures -/

/-- The chat-name rule of spec section 4.1, stated by cardinality; written
from the spec wording for comparison with the source-derived
`generateChatName`. -/
def chatNameSpec : List String → String
  | [] => "Empty Chat"
  | [p] => p ++ " (Notes)"
  | [p, q] => p ++ " & " ++ q
  | p :: q :: _ :: rest => p ++ ", " ++ q ++ " +" ++ toString (rest.length + 1) ++ " others"

/-- Browser state after the legacy app stored three chats in
`whatsapp-viewer-db` and the current app created its empty
`whatsapp-viewer-v2` database: a migration is pending. -/
def migrationEnvPending : IDBEnv :=
  [("whatsapp-viewer-db", { version := 1, chatsCount := some 3 }),
   ("whatsapp-viewer-v2", { version := 2, chatsCount := some 0 })]

/-- Browser state whose current store already holds five chats while a
database under the stale legacy name still has one record. -/
def migrationEnvStale : IDBEnv :=
  [("WhatsAppViewerDB", { version := 1, chatsCount := some 1 }),
   ("whatsapp-viewer-v2", { version := 2, chatsCount := some 5 })]

/-- A non-system message whose sender field is literally `"System"` (produced
by the parser from a line such as `1/2/2023, 10:00 - System: hello`). -/
def sysSenderMessage : Message :=
  { id := "m1", date := "1/2/2023", time := "10:00", sender := "System",
    content := "hello", isBookmarked := false, isSystemMessage := false }

def sysSenderChat : Chat :=
  { id := "c1", name := "x", messages := [sysSenderMessage], createdAt := 0,
    lastMessageTime := "10:00" }

def emptyDBState : DBState := { chats := [], messages := [], bookmarks := [], metadata := [] }

def bmChatRecord : ChatRecord :=
  { id := "c1", name := "Chat 1", createdAt := 0, lastMessageTime := "10:00",
    messageCount := 1, participantCount := 1, participants := ["A"] }

def bmMessageRecord : MessageRecord :=
  { id := "m1", chatId := "c1", date := "1/2/2023", time := "10:00", sender := "A",
    content := "hi", isSystemMessage := false, timestamp := 5 }

def bmStore : DBState :=
  { chats := [bmChatRecord], messages := [bmMessageRecord], bookmarks := [], metadata := [] }

/-- A legacy bookmark whose referenced message id is absent from the store. -/
def danglingBookmark : LegacyBookmark := { id := "missing", chatId := "c1" }

/-- A legacy bookmark that resolves against `bmStore`. -/
def resolvableBookmark : LegacyBookmark := { id := "m1", chatId := "c1" }

/-! ## C1 -/

/-- C1: the claim states `needsMigrationFromOldDb()` returns `true` iff the
legacy store has a chat record and the current store has none, and in
particular returns `false` once the current store is non-empty.  The code
consults stale database names (`WhatsAppViewerDB` / `WhatsAppViewerNormalized`
at version 1) instead of the stores the data layer actually uses
(`whatsapp-viewer-db`, read by the migration procedure itself, and
`whatsapp-viewer-v2`, written by `saveChat`).  Hence the detector answers
`false` while a real migration is pending, and `true` even when the current
store already holds chats. -/
theorem needsMigration_consults_stale_database_names :
    needsMigrationFromOldDb migrationEnvPending = false ∧
    legacyStoreChatCount migrationEnvPending = 3 ∧
    currentStoreChatCount migrationEnvPending = 0 ∧
    needsMigrationFromOldDb migrationEnvStale = true ∧
    currentStoreChatCount migrationEnvStale = 5 := by
  decide

/-! ## C7 -/

/-- C7: the generated chat name is determined by participant cardinality
exactly as the spec states: `"Empty Chat"`, `"P (Notes)"`, `"P & Q"`, or the
first two names joined by `", "` followed by `" +<n-2> others"`; in
particular `["Alice","Bob","Carol"]` yields `"Alice, Bob +1 others"`. -/
theorem generateChatName_matches_spec :
    (∀ ps : List String, generateChatName ps = chatNameSpec ps) ∧
    generateChatName ["Alice", "Bob", "Carol"] = "Alice, Bob +1 others" := by
  constructor
  · intro ps
    match ps with
    | [] => rfl
    | [p] => simp [generateChatName, chatNameSpec, joinSep]
    | [p, q] => simp [generateChatName, chatNameSpec, joinSep]
    | p :: q :: r :: rest =>
      simp only [generateChatName, chatNameSpec, List.length_cons, List.take,
        joinSep]
      rw [if_neg (by omega), if_neg (by omega),
        show rest.length + 1 + 1 + 1 - 2 = rest.length + 1 by omega,
        if_neg (by omega)]
  · decide

/-! ## C9 -/

/-- C9 counterexample: a chat whose only message has `isSystemMessage = false`
but sender literally `"System"`; `saveChatMetadata` stores `"System"` in the
participants list, so the claim that participants never contain `"System"`
fails on messages whose sender field is literally `"System"`. -/
theorem participants_include_literal_system_sender :
    (chatMetadataRecord sysSenderChat).participants = ["System"] ∧
    (∃ m ∈ sysSenderChat.messages, m.isSystemMessage = false ∧ m.sender = "System") ∧
    (saveChatMetadata sysSenderChat emptyDBState).chats = [chatMetadataRecord sysSenderChat] := by
  refine ⟨by decide, ⟨sysSenderMessage, by decide, by decide, by decide⟩, by decide⟩

/-- C9 amended: every record stored by `saveChatMetadata` satisfies
`participantCount = length participants`, and a sender appears in
`participants` iff some message of the chat carries it with
`isSystemMessage = false`; senders of system-flagged messages are excluded,
but a non-system message whose sender is literally `"System"` does contribute
`"System"`. -/
theorem saveChatMetadata_participants_characterization :
    ∀ (chat : Chat) (st : DBState),
      (chatMetadataRecord chat).participantCount =
        (chatMetadataRecord chat).participants.length ∧
      (∀ s : String, s ∈ (chatMetadataRecord chat).participants ↔
        ∃ m ∈ chat.messages, m.isSystemMessage = false ∧ m.sender = s) ∧
      chatMetadataRecord chat ∈ (saveChatMetadata chat st).chats := by
  intro chat st
  refine ⟨rfl, ?_, mem_putByKey_self _ _ _⟩
  intro s
  show s ∈ chatParticipants chat ↔ _
  unfold chatParticipants
  rw [mem_foldl_addUnique]
  simp only [List.mem_map, List.mem_filter, Bool.not_eq_true', List.not_mem_nil,
    false_or]
  constructor
  · rintro ⟨m, ⟨hm, hsys⟩, hs⟩
    exact ⟨m, hm, hsys, hs⟩
  · rintro ⟨m, hm, hsys, hs⟩
    exact ⟨m, ⟨hm, hsys⟩, hs⟩

/-! ## C2 -/

/-- C2 counterexample: with one resolvable legacy bookmark behind a dangling
one, `migrateBookmarkData` reports `success = false` with zero migrated
bookmarks and does not migrate the resolvable entry — the missing reference
is fatal, not skipped-and-counted. -/
theorem migrateBookmarkData_aborts_on_missing_reference :
    (migrateBookmarkData 7 [danglingBookmark, resolvableBookmark] bmStore).2 =
      { success := false, migratedBookmarks := 0 } ∧
    resolvesInStore bmStore danglingBookmark = false ∧
    resolvesInStore bmStore resolvableBookmark = true ∧
    (migrateBookmarkData 7 [danglingBookmark, resolvableBookmark] bmStore).1.bookmarks = [] := by
  decide

theorem saveBookmarkLegacy_preserves {now : Int} {messageId chatId : String}
    {st st2 : DBState} (h : saveBookmarkLegacy now messageId chatId st = Except.ok st2) :
    st2.messages = st.messages ∧ st2.chats = st.chats := by
  unfold saveBookmarkLegacy at h
  cases hg : getMessageAndChatForBookmark st messageId chatId with
  | none => rw [hg] at h; exact absurd h (by simp)
  | some v =>
    rw [hg] at h
    cases h
    exact ⟨rfl, rfl⟩

theorem resolvesInStore_congr {st st2 : DBState} (b : LegacyBookmark)
    (hm : st2.messages = st.messages) (hc : st2.chats = st.chats) :
    resolvesInStore st2 b = resolvesInStore st b := by
  unfold resolvesInStore getMessageAndChatForBookmark
  rw [hm, hc]

theorem saveBookmarkLegacy_error_iff {now : Int} {b : LegacyBookmark} {st : DBState} :
    (∃ e, saveBookmarkLegacy now b.id b.chatId st = Except.error e) ↔
      resolvesInStore st b = false := by
  unfold saveBookmarkLegacy resolvesInStore
  cases hg : getMessageAndChatForBookmark st b.id b.chatId <;> simp

theorem migrateBookmarkLoop_spec (now : Int) (total : Nat) :
    ∀ (legacy : List LegacyBookmark) (st : DBState),
      ((migrateBookmarkLoop now total st legacy).2.success = true ↔
        ∀ b ∈ legacy, resolvesInStore st b = true) ∧
      (migrateBookmarkLoop now total st legacy).2.migratedBookmarks =
        (if (migrateBookmarkLoop now total st legacy).2.success = true then total else 0) := by
  intro legacy
  induction legacy with
  | nil => intro st; simp [migrateBookmarkLoop]
  | cons b bs ih =>
    intro st
    unfold migrateBookmarkLoop
    cases hs : saveBookmarkLegacy now b.id b.chatId st with
    | error e =>
      have hb : resolvesInStore st b = false :=
        saveBookmarkLegacy_error_iff.mp ⟨e, hs⟩
      simp only []
      constructor
      · simp only [show (false = true) = False by simp]
        constructor
        · intro hF; exact hF.elim
        · intro hall
          have := hall b (by simp)
          rw [hb] at this
          exact absurd this (by simp)
      · simp
    | ok st2 =>
      obtain ⟨hm, hc⟩ := saveBookmarkLegacy_preserves hs
      have hb : resolvesInStore st b = true := by
        cases hres : resolvesInStore st b with
        | true => rfl
        | false =>
          obtain ⟨e, he⟩ := saveBookmarkLegacy_error_iff.mpr hres
          rw [hs] at he
          exact absurd he (by simp)
      obtain ⟨ih1, ih2⟩ := ih st2
      constructor
      · rw [ih1]
        constructor
        · intro hall
          intro x hx
          rcases List.mem_cons.mp hx with hxb | hxbs
          · rw [hxb]; exact hb
          · rw [← resolvesInStore_congr x hm hc]
            exact hall x hxbs
        · intro hall x hx
          rw [resolvesInStore_congr x hm hc]
          exact hall x (List.mem_cons.mpr (Or.inr hx))
      · exact ih2

/-- C2 amended: a legacy bookmark whose referenced message or chat is missing
is fatal to `migrateBookmarkData`: the run reports `success = false` with
`migratedBookmarks = 0` (entries after the failing one are not attempted), and
it reports success — counting the whole legacy list — exactly when every
legacy entry resolves against the store. -/
theorem migrateBookmarkData_success_iff_all_resolve :
    ∀ (now : Int) (legacy : List LegacyBookmark) (st : DBState),
      ((migrateBookmarkData now legacy st).2.success = true ↔
        ∀ b ∈ legacy, resolvesInStore st b = true) ∧
      (migrateBookmarkData now legacy st).2.migratedBookmarks =
        (if (migrateBookmarkData now legacy st).2.success = true then legacy.length else 0) := by
  intro now legacy st
  unfold migrateBookmarkData
  cases hE : legacy.isEmpty with
  | true =>
    have : legacy = [] := List.isEmpty_iff.mp hE
    subst this
    simp
  | false =>
    rw [if_neg (by simp : ¬(false = true))]
    exact migrateBookmarkLoop_spec now legacy.length legacy st

/-! ## C8 -/

/-- A message with unparseable date and time fields, as in spec property P7. -/
def malformedMessage : Message :=
  { id := "m1", date := "not-a-date", time := "times", sender := "A",
    content := "hi", isBookmarked := false, isSystemMessage := false }

/-- C8: whenever the date fails the date grammar, or the time fails the time
grammar, or the combined string parses to `NaN`, the derived timestamp is the
clock value `now` (a valid number by construction), and the record is still
saved: it appears in the messages store after `saveChatMessages`. -/
theorem parseTimestamp_malformed_fallback :
    ∀ (jsParse : String → Option Int) (now : Int) (chatId : String) (st : DBState)
      (m : Message),
      (dateFormatTest (trimList m.date.data) = false ∨
       timeFormatTest (trimList m.time.data) = false ∨
       jsParse (m.date ++ " " ++ m.time) = none) →
      (toMessageRecord jsParse now chatId m).timestamp = now ∧
      toMessageRecord jsParse now chatId m ∈
        (saveChatMessages jsParse now chatId [m] st).messages := by
  intro jsParse now chatId st m h
  constructor
  · show parseTimestamp jsParse now m.date m.time = now
    unfold parseTimestamp
    rcases h with h | h | h
    · rw [h]; rfl
    · rw [h]
      cases hd : dateFormatTest (trimList m.date.data) <;> rfl
    · cases hd : dateFormatTest (trimList m.date.data) with
      | false => rfl
      | true =>
        cases ht : timeFormatTest (trimList m.time.data) with
        | false => rfl
        | true => simp [h]
  · show _ ∈ (putByKey MessageRecord.id (toMessageRecord jsParse now chatId m) st.messages)
    exact mem_putByKey_self _ _ _

/-- C8 witness: `date="not-a-date"`, `time="times"` with a clock of 7 and an
oracle that would return 0 yields a stored record with timestamp 7. -/
theorem parseTimestamp_malformed_fallback_witness :
    (toMessageRecord (fun _ => some 0) 7 "c1" malformedMessage).timestamp = 7 ∧
    toMessageRecord (fun _ => some 0) 7 "c1" malformedMessage ∈
      (saveChatMessages (fun _ => some 0) 7 "c1" [malformedMessage] emptyDBState).messages :=
  parseTimestamp_malformed_fallback (fun _ => some 0) 7 "c1" emptyDBState
    malformedMessage (Or.inl (by decide))

/-! ## C3 -/

/-- Every character of a `D/M/YY`-shaped date string (digits and the two
slashes) is neither whitespace nor a digit-run terminator surprise: used to
show the trim is the identity on it. -/
theorem trim_two_digit_year_date {d mo y : List Char}
    (hd : ∀ c ∈ d, c.isDigit = true) (hmo : ∀ c ∈ mo, c.isDigit = true)
    (hy : ∀ c ∈ y, c.isDigit = true) :
    trimList (d ++ ('/' :: (mo ++ ('/' :: y)))) = d ++ ('/' :: (mo ++ ('/' :: y))) := by
  apply trimList_eq_self_of_all
  intro c hc
  rcases List.mem_append.mp hc with hcd | hc2
  · exact isJsSpace_eq_false_of_isDigit (hd c hcd)
  · rcases List.mem_cons.mp hc2 with hcs | hc3
    · rw [hcs]; decide
    · rcases List.mem_append.mp hc3 with hcm | hc4
      · exact isJsSpace_eq_false_of_isDigit (hmo c hcm)
      · rcases List.mem_cons.mp hc4 with hcs | hcy
        · rw [hcs]; decide
        · exact isJsSpace_eq_false_of_isDigit (hy c hcy)

/-- `dateRegex` rejects a two-digit year `D/M/YY`: the first alternative
requires a four-digit final run, the second a four-digit leading run. -/
theorem dateFormatTest_two_digit_year {d mo y : List Char}
    (hd : ∀ c ∈ d, c.isDigit = true) (hd1 : 1 ≤ d.length) (hd2 : d.length ≤ 2)
    (hmo : ∀ c ∈ mo, c.isDigit = true) (hmo1 : 1 ≤ mo.length) (hmo2 : mo.length ≤ 2)
    (hy : ∀ c ∈ y, c.isDigit = true) (hy2 : y.length = 2) :
    dateFormatTest (d ++ ('/' :: (mo ++ ('/' :: y)))) = false := by
  have hslash : Char.isDigit '/' = false := by decide
  have h1 : List.takeWhile Char.isDigit (d ++ ('/' :: (mo ++ ('/' :: y)))) = d :=
    takeWhile_append_cons _ d '/' _ hd hslash
  have h2 : List.dropWhile Char.isDigit (d ++ ('/' :: (mo ++ ('/' :: y)))) =
      '/' :: (mo ++ ('/' :: y)) :=
    dropWhile_append_cons _ d '/' _ hd hslash
  have h3 : List.takeWhile Char.isDigit (mo ++ ('/' :: y)) = mo :=
    takeWhile_append_cons _ mo '/' _ hmo hslash
  have h4 : List.dropWhile Char.isDigit (mo ++ ('/' :: y)) = '/' :: y :=
    dropWhile_append_cons _ mo '/' _ hmo hslash
  have h5 : List.takeWhile Char.isDigit y = y := takeWhile_eq_self_of_all _ y hy
  have h6 : List.dropWhile Char.isDigit y = [] := dropWhile_eq_nil_of_all _ y hy
  simp only [dateFormatTest, dateAlt1, dateAlt2, h1, h2, h3, h4, h5, h6]
  have hd0 : (decide (d.length = 0) || decide (2 < d.length)) = false := by
    simp only [Bool.or_eq_false_iff, decide_eq_false_iff_not]
    omega
  have hmo0 : (decide (mo.length = 0) || decide (2 < mo.length)) = false := by
    simp only [Bool.or_eq_false_iff, decide_eq_false_iff_not]
    omega
  have hsep : (decide ('/' ≠ '/') && decide ('/' ≠ '-')) = false := by decide
  have hy4 : decide (y.length = 4) = false := by simp [hy2]
  simp only [hd0, hmo0, hsep, hy4, Bool.false_eq_true, if_false, Bool.false_and]
  rw [if_pos (by omega)]
  simp

/-- C3: for every message whose date has the two-digit-year shape `D/M/YY`
that the parser's line grammar accepts, `saveChatMessages` stores the clock
value `now` (`Date.now()`) as the timestamp — regardless of the `Date`
oracle — because `parseTimestamp`'s date grammar only accepts four-digit
years.  The record still lands in the messages store. -/
theorem twoDigitYear_timestamp_is_clock :
    ∀ (jsParse : String → Option Int) (now : Int) (chatId : String) (st : DBState)
      (m : Message) (d mo y : List Char),
      m.date.data = d ++ ('/' :: (mo ++ ('/' :: y))) →
      (∀ c ∈ d, c.isDigit = true) → 1 ≤ d.length → d.length ≤ 2 →
      (∀ c ∈ mo, c.isDigit = true) → 1 ≤ mo.length → mo.length ≤ 2 →
      (∀ c ∈ y, c.isDigit = true) → y.length = 2 →
      (toMessageRecord jsParse now chatId m).timestamp = now ∧
      toMessageRecord jsParse now chatId m ∈
        (saveChatMessages jsParse now chatId [m] st).messages := by
  intro jsParse now chatId st m d mo y hdate hd hd1 hd2 hmo hmo1 hmo2 hy hy2
  apply parseTimestamp_malformed_fallback
  apply Or.inl
  rw [hdate, trim_two_digit_year_date hd hmo hy]
  exact dateFormatTest_two_digit_year hd hd1 hd2 hmo hmo1 hmo2 hy hy2


/-- A message dated `1/2/23`, the parser-accepted two-digit-year form. -/
def twoDigitYearMessage : Message :=
  { id := "m2", date := "1/2/23", time := "10:00", sender := "A",
    content := "hi", isBookmarked := false, isSystemMessage := false }

/-- C3 witness: with clock 42 and an oracle that would return 0, the stored
timestamp for `1/2/23, 10:00` is 42. -/
theorem twoDigitYear_timestamp_is_clock_witness :
    (toMessageRecord (fun _ => some 0) 42 "c1" twoDigitYearMessage).timestamp = 42 ∧
    toMessageRecord (fun _ => some 0) 42 "c1" twoDigitYearMessage ∈
      (saveChatMessages (fun _ => some 0) 42 "c1" [twoDigitYearMessage] emptyDBState).messages :=
  twoDigitYear_timestamp_is_clock (fun _ => some 0) 42 "c1" emptyDBState
    twoDigitYearMessage ['1'] ['2'] ['2', '3'] (by decide) (by decide) (by decide)
    (by decide) (by decide) (by decide) (by decide) (by decide) (by decide)

/-! ## C4 -/

theorem mem_foldl_filter {α : Type} (p : α → α → Bool) (rs : List α) :
    ∀ (l0 : List α) (x : α),
      x ∈ rs.foldl (fun acc r => acc.filter (p r)) l0 ↔
        x ∈ l0 ∧ ∀ r ∈ rs, p r x = true := by
  induction rs with
  | nil => simp
  | cons a t ih =>
    intro l0 x
    rw [List.foldl_cons, ih]
    rw [List.mem_filter]
    constructor
    · rintro ⟨⟨hx, hpa⟩, hall⟩
      refine ⟨hx, ?_⟩
      intro r hr
      rcases List.mem_cons.mp hr with h | h
      · rw [h]; exact hpa
      · exact hall r h
    · rintro ⟨hx, hall⟩
      exact ⟨⟨hx, hall a (by simp)⟩, fun r hr => hall r (List.mem_cons.mpr (Or.inr hr))⟩

theorem nodup_map_inj {α β : Type} {f : α → β} {l : List α}
    (h : (l.map f).Nodup) {x y : α} (hx : x ∈ l) (hy : y ∈ l) (hf : f x = f y) :
    x = y := by
  exact List.inj_on_of_nodup_map h hx hy hf

/-- C4: `deleteChat(C)` removes, in one readwrite transaction scoped to
exactly the chats, messages and bookmarks stores, the chat row with id `C`
(and only that row), every message located through the `chatId` index, and
every bookmark likewise; afterwards no message or bookmark referencing `C`
remains, records of other chats survive (given unique primary keys), and the
metadata store is untouched. -/
theorem deleteChat_cascades :
    ∀ (st : DBState) (chatId : String),
      (st.messages.map MessageRecord.id).Nodup →
      (st.bookmarks.map BookmarkRecord.id).Nodup →
      (deleteChat st chatId).chats = st.chats.filter (fun c => c.id ≠ chatId) ∧
      (∀ m ∈ (deleteChat st chatId).messages, m.chatId ≠ chatId) ∧
      (∀ b ∈ (deleteChat st chatId).bookmarks, b.chatId ≠ chatId) ∧
      (∀ m ∈ st.messages, m.chatId ≠ chatId → m ∈ (deleteChat st chatId).messages) ∧
      (∀ b ∈ st.bookmarks, b.chatId ≠ chatId → b ∈ (deleteChat st chatId).bookmarks) ∧
      (deleteChat st chatId).metadata = st.metadata ∧
      deleteChatScopeStores = ["chats", "messages", "bookmarks"] := by
  intro st chatId hnm hnb
  refine ⟨rfl, ?_, ?_, ?_, ?_, rfl, rfl⟩
  · intro m hm
    have h := (mem_foldl_filter _ _ _ _).mp hm
    intro hc
    have hmem : m ∈ messagesByChatId st chatId :=
      List.mem_filter.mpr ⟨h.1, by simp [hc]⟩
    have := h.2 m hmem
    simp at this
  · intro b hb
    have h := (mem_foldl_filter _ _ _ _).mp hb
    intro hc
    have hmem : b ∈ bookmarksByChatId st chatId :=
      List.mem_filter.mpr ⟨h.1, by simp [hc]⟩
    have := h.2 b hmem
    simp at this
  · intro m hm hc
    apply (mem_foldl_filter _ _ _ _).mpr
    refine ⟨hm, ?_⟩
    intro r hr
    have hrm := List.mem_filter.mp hr
    simp only [decide_eq_true_eq] at hrm
    have : m.id ≠ r.id := by
      intro he
      have := nodup_map_inj hnm hm hrm.1 he
      rw [this] at hc
      exact hc hrm.2
    simp [this]
  · intro b hb hc
    apply (mem_foldl_filter _ _ _ _).mpr
    refine ⟨hb, ?_⟩
    intro r hr
    have hrb := List.mem_filter.mp hr
    simp only [decide_eq_true_eq] at hrb
    have : b.id ≠ r.id := by
      intro he
      have := nodup_map_inj hnb hb hrb.1 he
      rw [this] at hc
      exact hc hrb.2
    simp [this]

/-- A second chat, message and bookmark that must survive deleting `c1`. -/
def otherChatRecord : ChatRecord :=
  { id := "c2", name := "Chat 2", createdAt := 0, lastMessageTime := "9:00",
    messageCount := 1, participantCount := 1, participants := ["B"] }

def otherMessageRecord : MessageRecord :=
  { id := "m2", chatId := "c2", date := "2/2/2023", time := "9:00", sender := "B",
    content := "yo", isSystemMessage := false, timestamp := 9 }

def bmBookmarkRecord : BookmarkRecord :=
  { id := "m1", chatId := "c1", createdAt := 7, sender := "A", content := "hi",
    date := "1/2/2023", time := "10:00", chatName := "Chat 1", isSystemMessage := false }

def otherBookmarkRecord : BookmarkRecord :=
  { id := "m2", chatId := "c2", createdAt := 8, sender := "B", content := "yo",
    date := "2/2/2023", time := "9:00", chatName := "Chat 2", isSystemMessage := false }

/-- A two-chat store used by the cascade-delete and time-window witnesses. -/
def twoChatStore : DBState :=
  { chats := [bmChatRecord, otherChatRecord],
    messages := [bmMessageRecord, otherMessageRecord],
    bookmarks := [bmBookmarkRecord, otherBookmarkRecord],
    metadata := [{ key := "k", updatedAt := 0 }] }

/-- C4 witness: deleting chat `c1` from the two-chat store satisfies every
clause of the cascade theorem. -/
theorem deleteChat_cascades_witness :
    (deleteChat twoChatStore "c1").chats =
      twoChatStore.chats.filter (fun c => c.id ≠ "c1") ∧
    (∀ m ∈ (deleteChat twoChatStore "c1").messages, m.chatId ≠ "c1") ∧
    (∀ b ∈ (deleteChat twoChatStore "c1").bookmarks, b.chatId ≠ "c1") ∧
    (∀ m ∈ twoChatStore.messages, m.chatId ≠ "c1" →
      m ∈ (deleteChat twoChatStore "c1").messages) ∧
    (∀ b ∈ twoChatStore.bookmarks, b.chatId ≠ "c1" →
      b ∈ (deleteChat twoChatStore "c1").bookmarks) ∧
    (deleteChat twoChatStore "c1").metadata = twoChatStore.metadata ∧
    deleteChatScopeStores = ["chats", "messages", "bookmarks"] :=
  deleteChat_cascades twoChatStore "c1" (by decide) (by decide)

/-! ## C5 -/

/-- C5: `loadBookmarks()` opens its transaction over only the bookmarks store
and reads nothing else: the scope constant names exactly the bookmarks store,
and the result depends only on the bookmarks collection — any two database
states with the same bookmarks produce identical results regardless of their
messages and chat-metadata collections. -/
theorem loadBookmarks_reads_only_bookmarks :
    loadBookmarksScopeStores = ["bookmarks"] ∧
    ∀ s t : DBState, s.bookmarks = t.bookmarks → loadBookmarks s = loadBookmarks t := by
  refine ⟨rfl, ?_⟩
  intro s t h
  unfold loadBookmarks
  rw [h]

/-- Two stores that share their bookmarks collection but differ in messages,
chats and metadata. -/
def bookmarkOnlyStoreA : DBState :=
  { chats := [bmChatRecord], messages := [bmMessageRecord],
    bookmarks := [bmBookmarkRecord], metadata := [] }

def bookmarkOnlyStoreB : DBState :=
  { chats := [], messages := [otherMessageRecord],
    bookmarks := [bmBookmarkRecord], metadata := [{ key := "k", updatedAt := 0 }] }

/-- C5 witness: the two stores sharing bookmarks yield the same
`loadBookmarks()` result. -/
theorem loadBookmarks_reads_only_bookmarks_witness :
    loadBookmarks bookmarkOnlyStoreA = loadBookmarks bookmarkOnlyStoreB :=
  loadBookmarks_reads_only_bookmarks.2 bookmarkOnlyStoreA bookmarkOnlyStoreB rfl

/-! ## C10 -/

/-- Every message returned by the bounded index scan comes from a record of
the requested chat whose timestamp lies in `[0, now]`. -/
theorem mem_chatMessagesInRange {now : Int} {st : DBState} {chatId : String}
    {r : MessageRecord} (h : r ∈ chatMessagesInRange now st chatId) :
    r ∈ st.messages ∧ r.chatId = chatId ∧ 0 ≤ r.timestamp ∧ r.timestamp ≤ now := by
  unfold chatMessagesInRange at h
  have hperm := List.perm_insertionSort
    (fun a b : MessageRecord =>
      a.timestamp < b.timestamp ∨ (a.timestamp = b.timestamp ∧ a.id ≤ b.id))
    (st.messages.filter
      (fun r => r.chatId = chatId && 0 ≤ r.timestamp && r.timestamp ≤ now))
  have hmem := hperm.mem_iff.mp h
  have hf := List.mem_filter.mp hmem
  obtain ⟨hin, hcond⟩ := hf
  simp only [Bool.and_eq_true, decide_eq_true_eq] at hcond
  exact ⟨hin, hcond.1.1, hcond.1.2, hcond.2⟩

/-- C10: `loadChatMessages(chatId)` ranges the `chatId_timestamp` index over
`[[chatId, 0], [chatId, Date.now()]]`, so every returned message stems from a
record of that chat with `0 ≤ timestamp ≤ now`, and a record of the chat whose
timestamp exceeds the clock is omitted from the result (its id never appears),
for any limit/offset. -/
theorem loadChatMessages_clock_window :
    ∀ (now : Int) (st : DBState) (chatId : String) (limit offsetArg : Option Nat),
      (∀ msg ∈ loadChatMessages now st chatId limit offsetArg,
        ∃ r ∈ st.messages, r.chatId = chatId ∧ 0 ≤ r.timestamp ∧ r.timestamp ≤ now ∧
          msg = recordToMessage r) ∧
      ((st.messages.map MessageRecord.id).Nodup →
        ∀ r ∈ st.messages, r.chatId = chatId → now < r.timestamp →
          r.id ∉ (loadChatMessages now st chatId limit offsetArg).map Message.id) := by
  intro now st chatId limit offsetArg
  have hsub : ∀ msg ∈ loadChatMessages now st chatId limit offsetArg,
      msg ∈ (chatMessagesInRange now st chatId).map recordToMessage := by
    intro msg hmsg
    unfold loadChatMessages at hmsg
    have h1 : msg ∈
        (match offsetArg with
          | some o => ((chatMessagesInRange now st chatId).map recordToMessage).drop o
          | none => (chatMessagesInRange now st chatId).map recordToMessage) := by
      cases limit with
      | none => exact hmsg
      | some l => exact List.take_subset l _ hmsg
    cases offsetArg with
    | none => exact h1
    | some o => exact List.drop_subset o _ h1
  constructor
  · intro msg hmsg
    obtain ⟨r, hr, hrm⟩ := List.mem_map.mp (hsub msg hmsg)
    obtain ⟨hin, hc, h0, hn⟩ := mem_chatMessagesInRange hr
    exact ⟨r, hin, hc, h0, hn, hrm.symm⟩
  · intro hnodup r hr hc hfut hid
    obtain ⟨msg, hmsg, hmid⟩ := List.mem_map.mp hid
    obtain ⟨r2, hr2, hrm2⟩ := List.mem_map.mp (hsub msg hmsg)
    obtain ⟨hin2, hc2, h02, hn2⟩ := mem_chatMessagesInRange hr2
    have hid2 : r2.id = r.id := by
      rw [show r2.id = (recordToMessage r2).id from rfl, hrm2, hmid]
    have heq := nodup_map_inj hnodup hin2 hr hid2
    rw [heq] at hn2
    omega

/-- A record of chat `c1` dated beyond the witness clock of 100. -/
def futureMessageRecord : MessageRecord :=
  { id := "mf", chatId := "c1", date := "1/2/2099", time := "10:00", sender := "A",
    content := "future", isSystemMessage := false, timestamp := 200 }

def futureStore : DBState :=
  { chats := [bmChatRecord], messages := [bmMessageRecord, futureMessageRecord],
    bookmarks := [], metadata := [] }

/-- C10 witness: with the clock at 100, the timestamp-5 record is returned
(and satisfies the window) while the timestamp-200 record of the same chat is
omitted. -/
theorem loadChatMessages_clock_window_witness :
    (∃ r ∈ futureStore.messages, r.chatId = "c1" ∧ 0 ≤ r.timestamp ∧
      r.timestamp ≤ 100 ∧ recordToMessage bmMessageRecord = recordToMessage r) ∧
    futureMessageRecord.id ∉
      (loadChatMessages 100 futureStore "c1" none none).map Message.id :=
  ⟨(loadChatMessages_clock_window 100 futureStore "c1" none none).1
      (recordToMessage bmMessageRecord) (by decide),
   (loadChatMessages_clock_window 100 futureStore "c1" none none).2 (by decide)
      futureMessageRecord (by decide) (by decide) (by decide)⟩

/-! ## C6: parser line-grammar lemmas -/

theorem dropWhile_eq_self_of_trimList_eq {l : List Char} (h : trimList l = l) :
    l.dropWhile isJsSpace = l := by
  have h1 : (l.dropWhile isJsSpace).length ≤ l.length :=
    (List.dropWhile_suffix isJsSpace).length_le
  have h2 : (trimList l).length ≤ (l.dropWhile isJsSpace).length := by
    unfold trimList
    rw [List.length_reverse]
    calc (((l.dropWhile isJsSpace).reverse.dropWhile isJsSpace)).length
        ≤ (l.dropWhile isJsSpace).reverse.length :=
          (List.dropWhile_suffix isJsSpace).length_le
      _ = (l.dropWhile isJsSpace).length := List.length_reverse _
  rw [h] at h2
  exact (List.dropWhile_suffix isJsSpace).eq_of_length (by omega)

theorem head_not_space_of_trimList_eq {c : Char} {t : List Char}
    (h : trimList (c :: t) = c :: t) : isJsSpace c = false := by
  have hd := dropWhile_eq_self_of_trimList_eq h
  cases hc : isJsSpace c with
  | false => rfl
  | true =>
    rw [List.dropWhile_cons, if_pos hc] at hd
    have : (t.dropWhile isJsSpace).length ≤ t.length :=
      (List.dropWhile_suffix isJsSpace).length_le
    have := congrArg List.length hd
    simp at this
    omega

theorem dropWhile_ne_nil_of_mem_false {p : Char → Bool} {l : List Char} {x : Char}
    (hx : x ∈ l) (hpx : p x = false) : l.dropWhile p ≠ [] := by
  induction l with
  | nil => cases hx
  | cons c t ih =>
    rw [List.dropWhile_cons]
    by_cases hc : p c = true
    · rw [if_pos hc]
      rcases List.mem_cons.mp hx with he | ht
      · rw [← he] at hc
        rw [hpx] at hc
        exact absurd hc (by simp)
      · exact ih ht
    · rw [if_neg hc]
      simp

theorem trimList_ne_nil_of_head {c : Char} {t : List Char}
    (hc : isJsSpace c = false) : trimList (c :: t) ≠ [] := by
  unfold trimList
  intro h
  rw [List.dropWhile_cons, if_neg (by simp [hc])] at h
  have hrev := congrArg List.reverse h
  rw [List.reverse_reverse, List.reverse_nil] at hrev
  exact dropWhile_ne_nil_of_mem_false (x := c) (by simp) hc hrev

theorem splitOnChar_no_sep {sep : Char} {cs : List Char} (h : sep ∉ cs) :
    splitOnChar sep cs = [cs] := by
  induction cs with
  | nil => rfl
  | cons c t ih =>
    unfold splitOnChar
    rw [if_neg (by intro he; exact h (by simp [he]))]
    rw [ih (by intro ht; exact h (by simp [ht]))]

theorem dropWhile_space_digit_led {xs t : List Char} (hxs : ∀ c ∈ xs, c.isDigit = true)
    (hne : xs ≠ []) : (xs ++ t).dropWhile isJsSpace = xs ++ t := by
  cases xs with
  | nil => exact absurd rfl hne
  | cons c xs2 =>
    rw [List.cons_append]
    exact dropWhile_eq_self_of_not_head _ _ _
      (isJsSpace_eq_false_of_isDigit (hxs c (by simp)))

/-- The structural matcher accepts exactly the grammar shape
`DIGITS/DIGITS/DIGITS, DIGITS:DIGITS - REST` (with the regex length bounds)
and returns the three capture groups. -/
theorem matchMessageLine_shaped
    {d mo y hh mi : List Char} {c0 : Char} {rtail : List Char}
    (hd : ∀ c ∈ d, c.isDigit = true) (hd1 : 1 ≤ d.length) (hd2 : d.length ≤ 2)
    (hmo : ∀ c ∈ mo, c.isDigit = true) (hmo1 : 1 ≤ mo.length) (hmo2 : mo.length ≤ 2)
    (hy : ∀ c ∈ y, c.isDigit = true) (hy1 : 2 ≤ y.length) (hy2 : y.length ≤ 4)
    (hhh : ∀ c ∈ hh, c.isDigit = true) (hh1 : 1 ≤ hh.length) (hh2 : hh.length ≤ 2)
    (hmi : ∀ c ∈ mi, c.isDigit = true) (hmi2 : mi.length = 2)
    (hc0 : isJsSpace c0 = false)
    (hterm : ∀ c ∈ c0 :: rtail, isLineTerm c = false) :
    matchMessageLine
        (d ++ ('/' :: (mo ++ ('/' :: (y ++ (',' :: (' ' :: (hh ++ (':' :: (mi ++ (' ' :: ('-' :: (' ' :: (c0 :: rtail)))))))))))))) =
      some ((d ++ ('/' :: (mo ++ ('/' :: y)))), (hh ++ (':' :: mi)), c0 :: rtail) := by
  have hslash : Char.isDigit '/' = false := by decide
  have hcomma : Char.isDigit ',' = false := by decide
  have hcolon : Char.isDigit ':' = false := by decide
  have hspace : Char.isDigit ' ' = false := by decide
  have h1 := takeWhile_append_cons Char.isDigit d '/'
    (mo ++ ('/' :: (y ++ (',' :: (' ' :: (hh ++ (':' :: (mi ++ (' ' :: ('-' :: (' ' :: (c0 :: rtail)))))))))))) hd hslash
  have h2 := dropWhile_append_cons Char.isDigit d '/'
    (mo ++ ('/' :: (y ++ (',' :: (' ' :: (hh ++ (':' :: (mi ++ (' ' :: ('-' :: (' ' :: (c0 :: rtail)))))))))))) hd hslash
  have h3 := takeWhile_append_cons Char.isDigit mo '/'
    (y ++ (',' :: (' ' :: (hh ++ (':' :: (mi ++ (' ' :: ('-' :: (' ' :: (c0 :: rtail)))))))))) hmo hslash
  have h4 := dropWhile_append_cons Char.isDigit mo '/'
    (y ++ (',' :: (' ' :: (hh ++ (':' :: (mi ++ (' ' :: ('-' :: (' ' :: (c0 :: rtail)))))))))) hmo hslash
  have h5 := takeWhile_append_cons Char.isDigit y ','
    (' ' :: (hh ++ (':' :: (mi ++ (' ' :: ('-' :: (' ' :: (c0 :: rtail)))))))) hy hcomma
  have h6 := dropWhile_append_cons Char.isDigit y ','
    (' ' :: (hh ++ (':' :: (mi ++ (' ' :: ('-' :: (' ' :: (c0 :: rtail)))))))) hy hcomma
  have h7 : List.dropWhile isJsSpace
      (' ' :: (hh ++ (':' :: (mi ++ (' ' :: ('-' :: (' ' :: (c0 :: rtail)))))))) =
      (hh ++ (':' :: (mi ++ (' ' :: ('-' :: (' ' :: (c0 :: rtail))))))) := by
    rw [List.dropWhile_cons, if_pos (by decide)]
    exact dropWhile_space_digit_led hhh (by intro he; rw [he] at hh1; simp at hh1)
  have h8 := takeWhile_append_cons Char.isDigit hh ':'
    (mi ++ (' ' :: ('-' :: (' ' :: (c0 :: rtail))))) hhh hcolon
  have h9 := dropWhile_append_cons Char.isDigit hh ':'
    (mi ++ (' ' :: ('-' :: (' ' :: (c0 :: rtail))))) hhh hcolon
  have h10 := takeWhile_append_cons Char.isDigit mi ' '
    ('-' :: (' ' :: (c0 :: rtail))) hmi hspace
  have h11 := dropWhile_append_cons Char.isDigit mi ' '
    ('-' :: (' ' :: (c0 :: rtail))) hmi hspace
  have h12 : List.dropWhile isJsSpace (' ' :: ('-' :: (' ' :: (c0 :: rtail)))) =
      ('-' :: (' ' :: (c0 :: rtail))) := by
    rw [List.dropWhile_cons, if_pos (by decide)]
    exact dropWhile_eq_self_of_not_head _ _ _ (by decide)
  have h13 : restAfterDash (' ' :: (c0 :: rtail)) = some (c0 :: rtail) := by
    unfold restAfterDash
    have ht : List.dropWhile isJsSpace (' ' :: (c0 :: rtail)) = c0 :: rtail := by
      rw [List.dropWhile_cons, if_pos (by decide)]
      exact dropWhile_eq_self_of_not_head _ _ _ hc0
    rw [ht]
    rw [if_neg (by simp)]
    have hany : (c0 :: rtail).any isLineTerm = false := by
      rw [List.any_eq_false]
      intro c hc
      rw [hterm c hc]
      simp
    rw [hany]
    simp
  have g1 : (decide (d.length = 0) || decide (2 < d.length)) = false := by
    simp only [Bool.or_eq_false_iff, decide_eq_false_iff_not]
    omega
  have g2 : (decide (mo.length = 0) || decide (2 < mo.length)) = false := by
    simp only [Bool.or_eq_false_iff, decide_eq_false_iff_not]
    omega
  have g3 : (decide (y.length < 2) || decide (4 < y.length)) = false := by
    simp only [Bool.or_eq_false_iff, decide_eq_false_iff_not]
    omega
  have g4 : (decide (hh.length = 0) || decide (2 < hh.length)) = false := by
    simp only [Bool.or_eq_false_iff, decide_eq_false_iff_not]
    omega
  have g5 : ¬(mi.length ≠ 2) := by omega
  simp only [matchMessageLine, h1, h2, h3, h4, h5, h6, h7, h8, h9, h10, h11, h12, h13,
    g1, g2, g3, g4, if_neg g5, Bool.false_eq_true, if_false]

theorem classifyRest_normal {name body : List Char}
    (hne : name ≠ []) (hnc : ':' ∉ name) (htrim : trimList name = name)
    (hbtrim : trimList body = body) :
    classifyRest (name ++ (':' :: (' ' :: body))) = (name, body, false) := by
  have hp : ∀ x ∈ name, (fun c => decide (c ≠ ':')) x = true := by
    intro x hx
    simp only [decide_eq_true_eq]
    intro he
    exact hnc (he ▸ hx)
  have hq : (fun c => decide (c ≠ ':')) ':' = false := by decide
  have h1 := takeWhile_append_cons (fun c => decide (c ≠ ':')) name ':'
    (' ' :: body) hp hq
  have h2 := dropWhile_append_cons (fun c => decide (c ≠ ':')) name ':'
    (' ' :: body) hp hq
  have hie : name.isEmpty = false := by
    cases name with
    | nil => exact absurd rfl hne
    | cons a l => rfl
  have hsp : (' ' :: body).dropWhile isJsSpace = body := by
    rw [List.dropWhile_cons, if_pos (by decide)]
    exact dropWhile_eq_self_of_trimList_eq hbtrim
  simp only [classifyRest, h1, h2, hie, Bool.false_eq_true, if_false, hsp, htrim,
    hbtrim]

theorem classifyRest_system {ann : List Char} (hnc : ':' ∉ ann)
    (htrim : trimList ann = ann) :
    classifyRest ann = ("System".data, ann, true) := by
  have hp : ∀ x ∈ ann, (fun c => decide (c ≠ ':')) x = true := by
    intro x hx
    simp only [decide_eq_true_eq]
    intro he
    exact hnc (he ▸ hx)
  have h1 := takeWhile_eq_self_of_all (fun c => decide (c ≠ ':')) ann hp
  have h2 := dropWhile_eq_nil_of_all (fun c => decide (c ≠ ':')) ann hp
  simp only [classifyRest, h1, h2, htrim]

theorem not_isEmpty_trim_cons {c : Char} {t : List Char} (hc : isJsSpace c = false) :
    (!(trimList (c :: t)).isEmpty) = true := by
  have hne := @trimList_ne_nil_of_head c t hc
  cases htl : trimList (c :: t) with
  | nil => exact absurd htl hne
  | cons a l => rfl

/-- The normal-message half of the parser grammar claim, for the line
`D/M/YY, H:MM - Name: body` built from its components. -/
theorem parser_normal_line (sfx : Nat → String) (d mo y hh mi name body : String)
    (hd : ∀ c ∈ d.data, c.isDigit = true) (hd1 : 1 ≤ d.data.length)
    (hd2 : d.data.length ≤ 2)
    (hmo : ∀ c ∈ mo.data, c.isDigit = true) (hmo1 : 1 ≤ mo.data.length)
    (hmo2 : mo.data.length ≤ 2)
    (hy : ∀ c ∈ y.data, c.isDigit = true) (hy2 : y.data.length = 2)
    (hhh : ∀ c ∈ hh.data, c.isDigit = true) (hh1 : 1 ≤ hh.data.length)
    (hh2 : hh.data.length ≤ 2)
    (hmi : ∀ c ∈ mi.data, c.isDigit = true) (hmi2 : mi.data.length = 2)
    (hnne : name.data ≠ []) (hnc : ':' ∉ name.data)
    (hntrim : trimList name.data = name.data)
    (hnterm : ∀ c ∈ name.data, isLineTerm c = false)
    (hbtrim : trimList body.data = body.data)
    (hbterm : ∀ c ∈ body.data, isLineTerm c = false) :
    ∃ msg : ParsedMessage,
      (parseWhatsAppChatInChunks sfx
        (d ++ "/" ++ mo ++ "/" ++ y ++ ", " ++ hh ++ ":" ++ mi ++ " - " ++
          name ++ ": " ++ body)).messages = [msg] ∧
      msg.sender = name ∧ msg.content = body ∧ msg.isSystemMessage = false := by
  have hdata : (d ++ "/" ++ mo ++ "/" ++ y ++ ", " ++ hh ++ ":" ++ mi ++ " - " ++
      name ++ ": " ++ body).data =
      (d.data ++ ('/' :: (mo.data ++ ('/' :: (y.data ++ (',' :: (' ' :: (hh.data ++ (':' :: (mi.data ++ (' ' :: ('-' :: (' ' :: (name.data ++ (':' :: (' ' :: body.data)))))))))))))))) := by
    simp [String.data_append, show ("/" : String).data = ['/'] from rfl,
      show (", " : String).data = [',', ' '] from rfl,
      show (":" : String).data = [':'] from rfl,
      show (" - " : String).data = [' ', '-', ' '] from rfl,
      show (": " : String).data = [':', ' '] from rfl]
  obtain ⟨c0, ntail, hname⟩ : ∃ c0 ntail, name.data = c0 :: ntail := by
    cases hn : name.data with
    | nil => exact absurd hn hnne
    | cons a l => exact ⟨a, l, rfl⟩
  have hdataC : (d ++ "/" ++ mo ++ "/" ++ y ++ ", " ++ hh ++ ":" ++ mi ++ " - " ++
      name ++ ": " ++ body).data =
      (d.data ++ ('/' :: (mo.data ++ ('/' :: (y.data ++ (',' :: (' ' :: (hh.data ++ (':' :: (mi.data ++ (' ' :: ('-' :: (' ' :: (c0 :: (ntail ++ (':' :: (' ' :: body.data))))))))))))))))) := by
    rw [hdata, hname, List.cons_append]
  have hc0 : isJsSpace c0 = false := by
    rw [hname] at hntrim
    exact head_not_space_of_trimList_eq hntrim
  have htermR : ∀ c ∈ (c0 :: (ntail ++ (':' :: (' ' :: body.data)))), isLineTerm c = false := by
    intro c hc
    simp only [List.mem_cons, List.mem_append] at hc
    rcases hc with h|h|h|h|h
    · exact hnterm c (by rw [hname, h]; simp)
    · exact hnterm c (by rw [hname]; exact List.mem_cons.mpr (Or.inr h))
    · rw [h]; decide
    · rw [h]; decide
    · exact hbterm c h
  have hall : ∀ c ∈ (d.data ++ ('/' :: (mo.data ++ ('/' :: (y.data ++ (',' :: (' ' :: (hh.data ++ (':' :: (mi.data ++ (' ' :: ('-' :: (' ' :: (c0 :: (ntail ++ (':' :: (' ' :: body.data))))))))))))))))), isLineTerm c = false := by
    intro c hc
    simp only [List.mem_append, List.mem_cons] at hc
    rcases hc with h|h|h|h|h|h|h|h|h|h|h|h|h|h|h|h|h|h
    · exact isLineTerm_eq_false_of_isDigit (hd c h)
    · rw [h]; decide
    · exact isLineTerm_eq_false_of_isDigit (hmo c h)
    · rw [h]; decide
    · exact isLineTerm_eq_false_of_isDigit (hy c h)
    · rw [h]; decide
    · rw [h]; decide
    · exact isLineTerm_eq_false_of_isDigit (hhh c h)
    · rw [h]; decide
    · exact isLineTerm_eq_false_of_isDigit (hmi c h)
    · rw [h]; decide
    · rw [h]; decide
    · rw [h]; decide
    · exact hnterm c (by rw [hname, h]; simp)
    · exact hnterm c (by rw [hname]; exact List.mem_cons.mpr (Or.inr h))
    · rw [h]; decide
    · rw [h]; decide
    · exact hbterm c h
  have hnl : '\n' ∉ (d.data ++ ('/' :: (mo.data ++ ('/' :: (y.data ++ (',' :: (' ' :: (hh.data ++ (':' :: (mi.data ++ (' ' :: ('-' :: (' ' :: (c0 :: (ntail ++ (':' :: (' ' :: body.data))))))))))))))))) := by
    intro hmem
    exact absurd (hall _ hmem) (by decide)
  have hsplitC : splitOnChar '\n' (d.data ++ ('/' :: (mo.data ++ ('/' :: (y.data ++ (',' :: (' ' :: (hh.data ++ (':' :: (mi.data ++ (' ' :: ('-' :: (' ' :: (c0 :: (ntail ++ (':' :: (' ' :: body.data))))))))))))))))) = [(d.data ++ ('/' :: (mo.data ++ ('/' :: (y.data ++ (',' :: (' ' :: (hh.data ++ (':' :: (mi.data ++ (' ' :: ('-' :: (' ' :: (c0 :: (ntail ++ (':' :: (' ' :: body.data)))))))))))))))))] := splitOnChar_no_sep hnl
  have htrimC : (!(trimList (d.data ++ ('/' :: (mo.data ++ ('/' :: (y.data ++ (',' :: (' ' :: (hh.data ++ (':' :: (mi.data ++ (' ' :: ('-' :: (' ' :: (c0 :: (ntail ++ (':' :: (' ' :: body.data)))))))))))))))))).isEmpty) = true := by
    obtain ⟨dc, dtail, hdd⟩ : ∃ dc dtail, d.data = dc :: dtail := by
      cases hn : d.data with
      | nil => rw [hn] at hd1; simp at hd1
      | cons a l => exact ⟨a, l, rfl⟩
    have hdc : isJsSpace dc = false :=
      isJsSpace_eq_false_of_isDigit (hd dc (by rw [hdd]; simp))
    rw [hdd, List.cons_append]
    exact not_isEmpty_trim_cons hdc
  have hy1 : 2 ≤ y.data.length := by omega
  have hy4 : y.data.length ≤ 4 := by omega
  have hmatch := matchMessageLine_shaped hd hd1 hd2 hmo hmo1 hmo2 hy hy1 hy4
    hhh hh1 hh2 hmi hmi2 hc0 htermR
  have hclass : classifyRest (c0 :: (ntail ++ (':' :: (' ' :: body.data)))) = (name.data, body.data, false) := by
    rw [show (c0 :: (ntail ++ (':' :: (' ' :: body.data)))) = name.data ++ (':' :: (' ' :: body.data)) by
      rw [hname, List.cons_append]]
    exact classifyRest_normal hnne hnc hntrim hbtrim
  refine ⟨{ id := String.mk ((d.data ++ ('/' :: (mo.data ++ ('/' :: y.data)))) ++ ('-' :: ((hh.data ++ (':' :: mi.data)) ++ ('-' :: (sfx 0).data))))
            date := String.mk (trimList (d.data ++ ('/' :: (mo.data ++ ('/' :: y.data)))))
            time := String.mk (trimList (hh.data ++ (':' :: mi.data)))
            sender := String.mk name.data
            content := String.mk body.data
            isBookmarked := false
            isSystemMessage := false }, ?_, rfl, rfl, rfl⟩
  simp only [parseWhatsAppChatInChunks, hdataC, hsplitC, List.filter_cons, htrimC,
    if_true, List.filter_nil, runParse, processLine, hmatch, hclass]
  simp [List.append_assoc]


/-- The system-message half of the parser grammar claim, for the line
`D/M/YY, H:MM - announcement text` whose remainder contains no colon. -/
theorem parser_system_line (sfx : Nat → String) (d mo y hh mi ann : String)
    (hd : ∀ c ∈ d.data, c.isDigit = true) (hd1 : 1 ≤ d.data.length)
    (hd2 : d.data.length ≤ 2)
    (hmo : ∀ c ∈ mo.data, c.isDigit = true) (hmo1 : 1 ≤ mo.data.length)
    (hmo2 : mo.data.length ≤ 2)
    (hy : ∀ c ∈ y.data, c.isDigit = true) (hy2 : y.data.length = 2)
    (hhh : ∀ c ∈ hh.data, c.isDigit = true) (hh1 : 1 ≤ hh.data.length)
    (hh2 : hh.data.length ≤ 2)
    (hmi : ∀ c ∈ mi.data, c.isDigit = true) (hmi2 : mi.data.length = 2)
    (hane : ann.data ≠ []) (hanc : ':' ∉ ann.data)
    (hatrim : trimList ann.data = ann.data)
    (haterm : ∀ c ∈ ann.data, isLineTerm c = false) :
    ∃ msg : ParsedMessage,
      (parseWhatsAppChatInChunks sfx
        (d ++ "/" ++ mo ++ "/" ++ y ++ ", " ++ hh ++ ":" ++ mi ++ " - " ++ ann)).messages
        = [msg] ∧
      msg.sender = "System" ∧ msg.content = ann ∧ msg.isSystemMessage = true := by
  have hdata : (d ++ "/" ++ mo ++ "/" ++ y ++ ", " ++ hh ++ ":" ++ mi ++ " - " ++
      ann).data = (d.data ++ ('/' :: (mo.data ++ ('/' :: (y.data ++ (',' :: (' ' :: (hh.data ++ (':' :: (mi.data ++ (' ' :: ('-' :: (' ' :: ann.data))))))))))))) := by
    simp [String.data_append, show ("/" : String).data = ['/'] from rfl,
      show (", " : String).data = [',', ' '] from rfl,
      show (":" : String).data = [':'] from rfl,
      show (" - " : String).data = [' ', '-', ' '] from rfl]
  obtain ⟨c0, ntail, hname⟩ : ∃ c0 ntail, ann.data = c0 :: ntail := by
    cases hn : ann.data with
    | nil => exact absurd hn hane
    | cons a l => exact ⟨a, l, rfl⟩
  have hdataC : (d ++ "/" ++ mo ++ "/" ++ y ++ ", " ++ hh ++ ":" ++ mi ++ " - " ++
      ann).data = (d.data ++ ('/' :: (mo.data ++ ('/' :: (y.data ++ (',' :: (' ' :: (hh.data ++ (':' :: (mi.data ++ (' ' :: ('-' :: (' ' :: (c0 :: ntail)))))))))))))) := by
    rw [hdata, hname]
  have hc0 : isJsSpace c0 = false := by
    rw [hname] at hatrim
    exact head_not_space_of_trimList_eq hatrim
  have htermR : ∀ c ∈ (c0 :: ntail), isLineTerm c = false := by
    intro c hc
    exact haterm c (by rw [hname]; exact hc)
  have hall : ∀ c ∈ (d.data ++ ('/' :: (mo.data ++ ('/' :: (y.data ++ (',' :: (' ' :: (hh.data ++ (':' :: (mi.data ++ (' ' :: ('-' :: (' ' :: (c0 :: ntail)))))))))))))), isLineTerm c = false := by
    intro c hc
    simp only [List.mem_append, List.mem_cons] at hc
    rcases hc with h|h|h|h|h|h|h|h|h|h|h|h|h|h|h
    · exact isLineTerm_eq_false_of_isDigit (hd c h)
    · rw [h]; decide
    · exact isLineTerm_eq_false_of_isDigit (hmo c h)
    · rw [h]; decide
    · exact isLineTerm_eq_false_of_isDigit (hy c h)
    · rw [h]; decide
    · rw [h]; decide
    · exact isLineTerm_eq_false_of_isDigit (hhh c h)
    · rw [h]; decide
    · exact isLineTerm_eq_false_of_isDigit (hmi c h)
    · rw [h]; decide
    · rw [h]; decide
    · rw [h]; decide
    · exact haterm c (by rw [hname, h]; simp)
    · exact haterm c (by rw [hname]; exact List.mem_cons.mpr (Or.inr h))
  have hnl : '\n' ∉ (d.data ++ ('/' :: (mo.data ++ ('/' :: (y.data ++ (',' :: (' ' :: (hh.data ++ (':' :: (mi.data ++ (' ' :: ('-' :: (' ' :: (c0 :: ntail)))))))))))))) := by
    intro hmem
    exact absurd (hall _ hmem) (by decide)
  have hsplitC : splitOnChar '\n' (d.data ++ ('/' :: (mo.data ++ ('/' :: (y.data ++ (',' :: (' ' :: (hh.data ++ (':' :: (mi.data ++ (' ' :: ('-' :: (' ' :: (c0 :: ntail)))))))))))))) = [(d.data ++ ('/' :: (mo.data ++ ('/' :: (y.data ++ (',' :: (' ' :: (hh.data ++ (':' :: (mi.data ++ (' ' :: ('-' :: (' ' :: (c0 :: ntail))))))))))))))] := splitOnChar_no_sep hnl
  have htrimC : (!(trimList (d.data ++ ('/' :: (mo.data ++ ('/' :: (y.data ++ (',' :: (' ' :: (hh.data ++ (':' :: (mi.data ++ (' ' :: ('-' :: (' ' :: (c0 :: ntail))))))))))))))).isEmpty) = true := by
    obtain ⟨dc, dtail, hdd⟩ : ∃ dc dtail, d.data = dc :: dtail := by
      cases hn : d.data with
      | nil => rw [hn] at hd1; simp at hd1
      | cons a l => exact ⟨a, l, rfl⟩
    have hdc : isJsSpace dc = false :=
      isJsSpace_eq_false_of_isDigit (hd dc (by rw [hdd]; simp))
    rw [hdd, List.cons_append]
    exact not_isEmpty_trim_cons hdc
  have hy1 : 2 ≤ y.data.length := by omega
  have hy4 : y.data.length ≤ 4 := by omega
  have hmatch := matchMessageLine_shaped hd hd1 hd2 hmo hmo1 hmo2 hy hy1 hy4
    hhh hh1 hh2 hmi hmi2 hc0 htermR
  have hclass : classifyRest (c0 :: ntail) = (("System").data, ann.data, true) := by
    rw [show (c0 :: ntail) = ann.data by rw [hname]]
    exact classifyRest_system hanc hatrim
  refine ⟨{ id := String.mk ((d.data ++ ('/' :: (mo.data ++ ('/' :: y.data)))) ++ ('-' :: ((hh.data ++ (':' :: mi.data)) ++ ('-' :: (sfx 0).data))))
            date := String.mk (trimList (d.data ++ ('/' :: (mo.data ++ ('/' :: y.data)))))
            time := String.mk (trimList (hh.data ++ (':' :: mi.data)))
            sender := String.mk (("System").data)
            content := String.mk ann.data
            isBookmarked := false
            isSystemMessage := true }, ?_, rfl, rfl, rfl⟩
  simp only [parseWhatsAppChatInChunks, hdataC, hsplitC, List.filter_cons, htrimC,
    if_true, List.filter_nil, runParse, processLine, hmatch, hclass]
  simp [List.append_assoc]

/-- C6: for every input line `D/M/YY, H:MM - Name: body` (digit runs within
the grammar bounds; `Name` non-empty, colon-free, trim-stable and free of line
terminators; `body` trim-stable and free of line terminators) the parser
yields exactly one message with `sender = Name`, `content = body`,
`isSystemMessage = false`; and for every grammar-matching line
`D/M/YY, H:MM - announcement text` whose remainder contains no colon it
yields exactly one message with `sender = "System"`, `isSystemMessage = true`,
`content = announcement text`. -/
theorem parser_line_grammar :
    (∀ (sfx : Nat → String) (d mo y hh mi name body : String),
      (∀ c ∈ d.data, c.isDigit = true) → 1 ≤ d.data.length → d.data.length ≤ 2 →
      (∀ c ∈ mo.data, c.isDigit = true) → 1 ≤ mo.data.length → mo.data.length ≤ 2 →
      (∀ c ∈ y.data, c.isDigit = true) → y.data.length = 2 →
      (∀ c ∈ hh.data, c.isDigit = true) → 1 ≤ hh.data.length → hh.data.length ≤ 2 →
      (∀ c ∈ mi.data, c.isDigit = true) → mi.data.length = 2 →
      name.data ≠ [] → ':' ∉ name.data → trimList name.data = name.data →
      (∀ c ∈ name.data, isLineTerm c = false) →
      trimList body.data = body.data → (∀ c ∈ body.data, isLineTerm c = false) →
      ∃ msg : ParsedMessage,
        (parseWhatsAppChatInChunks sfx
          (d ++ "/" ++ mo ++ "/" ++ y ++ ", " ++ hh ++ ":" ++ mi ++ " - " ++
            name ++ ": " ++ body)).messages = [msg] ∧
        msg.sender = name ∧ msg.content = body ∧ msg.isSystemMessage = false) ∧
    (∀ (sfx : Nat → String) (d mo y hh mi ann : String),
      (∀ c ∈ d.data, c.isDigit = true) → 1 ≤ d.data.length → d.data.length ≤ 2 →
      (∀ c ∈ mo.data, c.isDigit = true) → 1 ≤ mo.data.length → mo.data.length ≤ 2 →
      (∀ c ∈ y.data, c.isDigit = true) → y.data.length = 2 →
      (∀ c ∈ hh.data, c.isDigit = true) → 1 ≤ hh.data.length → hh.data.length ≤ 2 →
      (∀ c ∈ mi.data, c.isDigit = true) → mi.data.length = 2 →
      ann.data ≠ [] → ':' ∉ ann.data → trimList ann.data = ann.data →
      (∀ c ∈ ann.data, isLineTerm c = false) →
      ∃ msg : ParsedMessage,
        (parseWhatsAppChatInChunks sfx
          (d ++ "/" ++ mo ++ "/" ++ y ++ ", " ++ hh ++ ":" ++ mi ++ " - " ++
            ann)).messages = [msg] ∧
        msg.sender = "System" ∧ msg.content = ann ∧ msg.isSystemMessage = true) :=
  ⟨parser_normal_line, parser_system_line⟩

/-- C6 witness: the two concrete lines of the spec scenario. -/
theorem parser_line_grammar_witness :
    (∃ msg : ParsedMessage,
      (parseWhatsAppChatInChunks (fun _ => "r1")
        "1/2/23, 10:00 - Alice: Hello").messages = [msg] ∧
      msg.sender = "Alice" ∧ msg.content = "Hello" ∧ msg.isSystemMessage = false) ∧
    (∃ msg : ParsedMessage,
      (parseWhatsAppChatInChunks (fun _ => "r1")
        "1/2/23, 10:02 - Messages are encrypted").messages = [msg] ∧
      msg.sender = "System" ∧ msg.content = "Messages are encrypted" ∧
      msg.isSystemMessage = true) :=
  ⟨parser_line_grammar.1 (fun _ => "r1") "1" "2" "23" "10" "00" "Alice" "Hello"
      (by decide) (by decide) (by decide) (by decide) (by decide) (by decide)
      (by decide) (by decide) (by decide) (by decide) (by decide) (by decide)
      (by decide) (by decide) (by decide) (by decide) (by decide) (by decide)
      (by decide),
   parser_line_grammar.2 (fun _ => "r1") "1" "2" "23" "10" "02"
      "Messages are encrypted"
      (by decide) (by decide) (by decide) (by decide) (by decide) (by decide)
      (by decide) (by decide) (by decide) (by decide) (by decide) (by decide)
      (by decide) (by decide) (by decide) (by decide) (by decide)⟩

end WhatsAppViewer
